import Mathlib

/-!
Verification of the plate-generator layout and motif-compositing engine.

The definitions below are a shallow embedding of the TypeScript source:
`src/components/PlateCanvas.tsx` (layout, tiling, motif resolver, export)
and the application state operations (`addPlate`, `removePlate`, the
default-plate repair effect).  JavaScript numbers are modelled as exact
rationals; `Math.floor` and `Math.round` become explicit integer floors.
-/

namespace PlateGen

/-- A plate record: opaque id plus real-world dimensions in centimeters
(`Plate` in `src/types.ts`). -/
structure Plate where
  id : String
  widthCm : ℚ
  heightCm : ℚ
deriving DecidableEq

/-- Placeholder used only to give out-of-range list indexing a value. -/
def dummyPlate : Plate := ⟨"", 0, 0⟩

/-- JS `Math.floor` on rationals. -/
def jsFloor (x : ℚ) : ℚ := ((⌊x⌋ : ℤ) : ℚ)

/-- JS `Math.round` (round half toward positive infinity). -/
def jsRound (x : ℚ) : ℚ := ((⌊x + 1/2⌋ : ℤ) : ℚ)

/-- `OUTER_PAD = 24` in `PlateCanvas.tsx`. -/
def OUTER_PAD : ℚ := 24

/-- `GAP_PX = 8` in `PlateCanvas.tsx`. -/
def GAP_PX : ℚ := 8

/-- `CARD_W_RATIO = 1.0` in `PlateCanvas.tsx`. -/
def cardWRatio : ℚ := 1

/-- `CARD_H_RATIO = 0.95` in `PlateCanvas.tsx`. -/
def cardHRatio : ℚ := 19/20

/-- The wrapper size observed by the ResizeObserver. -/
structure Surface where
  w : ℚ
  h : ℚ
deriving DecidableEq

/-- `cssW = Math.max(200, containerSize.w)`. -/
def cssW (s : Surface) : ℚ := max 200 s.w

/-- `cssH = Math.max(220, containerSize.h)`. -/
def cssH (s : Surface) : ℚ := max 220 s.h

/-- `cardW = Math.floor(cssW * CARD_W_RATIO)`. -/
def cardW (s : Surface) : ℚ := jsFloor (cssW s * cardWRatio)

/-- `cardH = Math.floor(cssH * CARD_H_RATIO)`. -/
def cardH (s : Surface) : ℚ := jsFloor (cssH s * cardHRatio)

/-- `x0 = Math.floor((cssW - cardW) / 2)`. -/
def x0 (s : Surface) : ℚ := jsFloor ((cssW s - cardW s) / 2)

/-- `y0 = Math.floor((cssH - cardH) / 2)`. -/
def y0 (s : Surface) : ℚ := jsFloor ((cssH s - cardH s) / 2)

/-- `ix = x0 + OUTER_PAD`. -/
def ix (s : Surface) : ℚ := x0 s + OUTER_PAD

/-- `iy = y0 + OUTER_PAD`. -/
def iy (s : Surface) : ℚ := y0 s + OUTER_PAD

/-- `usableW = cardW - OUTER_PAD * 2`. -/
def usableW (s : Surface) : ℚ := cardW s - OUTER_PAD * 2

/-- `usableH = cardH - OUTER_PAD * 2`. -/
def usableH (s : Surface) : ℚ := cardH s - OUTER_PAD * 2

/-- `metrics.totalWcm = plates.reduce((s, p) => s + p.widthCm, 0)`. -/
def totalWcmRaw (plates : List Plate) : ℚ := (plates.map Plate.widthCm).sum

/-- `metrics.maxHcm = Math.max(...plates.map(p => p.heightCm))`; for an empty
sequence JS yields `-Infinity`, modelled here as `none`. -/
def maxHcmRaw : List Plate → Option ℚ
  | [] => Option.none
  | p :: t => Option.some ((t.map Plate.heightCm).foldl max p.heightCm)

/-- `totalWcm = Math.max(1, metrics.totalWcm)`. -/
def totalWcm (plates : List Plate) : ℚ := max 1 (totalWcmRaw plates)

/-- `maxHcm = Math.max(1, metrics.maxHcm)`; `Math.max(1, -Infinity) = 1`. -/
def maxHcm (plates : List Plate) : ℚ :=
  match maxHcmRaw plates with
  | none => 1
  | some m => max 1 m

/-- `gapsPx = GAP_PX * Math.max(0, plates.length - 1)`. -/
def gapsPx (plates : List Plate) : ℚ :=
  GAP_PX * max 0 ((plates.length : ℚ) - 1)

/-- `scaleByW = (usableW - gapsPx) / totalWcm`. -/
def scaleByW (plates : List Plate) (s : Surface) : ℚ :=
  (usableW s - gapsPx plates) / totalWcm plates

/-- `scaleByH = usableH / maxHcm`. -/
def scaleByH (plates : List Plate) (s : Surface) : ℚ :=
  usableH s / maxHcm plates

/-- `scale = Math.max(0.1, Math.min(scaleByW, scaleByH))`. -/
def scale (plates : List Plate) (s : Surface) : ℚ :=
  max (1/10) (min (scaleByW plates s) (scaleByH plates s))

/-- `innerW = totalWcm * scale + gapsPx`. -/
def innerW (plates : List Plate) (s : Surface) : ℚ :=
  totalWcm plates * scale plates s + gapsPx plates

/-- `innerH = maxHcm * scale`. -/
def innerH (plates : List Plate) (s : Surface) : ℚ :=
  maxHcm plates * scale plates s

/-- `off.width = Math.max(1, Math.round(totalWcm * scale))` (the tiled strip). -/
def offW (plates : List Plate) (s : Surface) : ℚ :=
  max 1 (jsRound (totalWcm plates * scale plates s))

/-- `off.height = Math.max(1, Math.round(innerH))` (the tiled strip). -/
def offH (plates : List Plate) (s : Surface) : ℚ :=
  max 1 (jsRound (innerH plates s))

/-- `startX = Math.floor(ix + (usableW - innerW) / 2)`. -/
def startX (plates : List Plate) (s : Surface) : ℚ :=
  jsFloor (ix s + (usableW s - innerW plates s) / 2)

/-- `startY = Math.floor(iy + (usableH - innerH) / 2)`. -/
def startY (plates : List Plate) (s : Surface) : ℚ :=
  jsFloor (iy s + (usableH s - innerH plates s) / 2)

/-- `baselineY = startY + innerH` (bottom of the inner area). -/
def baselineY (plates : List Plate) (s : Surface) : ℚ :=
  startY plates s + innerH plates s

/-- The accumulator `acc` just before plate `idx` is painted: the sum of the
preceding plates' `p.widthCm * scale`. -/
def accAt (plates : List Plate) (s : Surface) (idx : ℕ) : ℚ :=
  ((plates.take idx).map (fun p => p.widthCm * scale plates s)).sum

/-- `w = Math.max(0, p.widthCm * scale)` for plate `idx`. -/
def plateW (plates : List Plate) (s : Surface) (idx : ℕ) : ℚ :=
  max 0 ((plates.getD idx dummyPlate).widthCm * scale plates s)

/-- `h = Math.max(0, p.heightCm * scale)` for plate `idx`. -/
def plateH (plates : List Plate) (s : Surface) (idx : ℕ) : ℚ :=
  max 0 ((plates.getD idx dummyPlate).heightCm * scale plates s)

/-- `sx = Math.floor(acc)`: horizontal source offset into the strip. -/
def srcX (plates : List Plate) (s : Surface) (idx : ℕ) : ℚ :=
  jsFloor (accAt plates s idx)

/-- `sy = Math.max(0, Math.floor(off.height - h))`: vertical source offset. -/
def srcY (plates : List Plate) (s : Surface) (idx : ℕ) : ℚ :=
  max 0 (jsFloor (offH plates s - plateH plates s idx))

/-- `dx = Math.floor(startX + acc + GAP_PX * idx)`. -/
def plateX (plates : List Plate) (s : Surface) (idx : ℕ) : ℚ :=
  jsFloor (startX plates s + accAt plates s idx + GAP_PX * idx)

/-- `dy = Math.floor(baselineY - h)`. -/
def plateY (plates : List Plate) (s : Surface) (idx : ℕ) : ℚ :=
  jsFloor (baselineY plates s - plateH plates s idx)

/-- The bottom edge `plateRect.y + plateRect.h` of the painted plate `idx`. -/
def bottomEdge (plates : List Plate) (s : Surface) (idx : ℕ) : ℚ :=
  plateY plates s idx + plateH plates s idx

/-- The sum of the painted pixel widths `w = Math.max(0, p.widthCm * scale)`
over the whole plate sequence. -/
def sumPlateWidths (plates : List Plate) (s : Surface) : ℚ :=
  (plates.map (fun p => max 0 (p.widthCm * scale plates s))).sum

/-- Modelled from the spec (section 4.4 / testable properties): the horizontal
source offset as the spec words it — the running sum of the preceding plates'
scaled widths PLUS the accumulated inter-plate gaps.  Compared against `srcX`,
which is translated from the source. -/
def srcXSpec (plates : List Plate) (s : Surface) (idx : ℕ) : ℚ :=
  jsFloor (accAt plates s idx + GAP_PX * idx)

/- ------------------------- motif resolver ------------------------- -/

/-- A decoded image handle (`HTMLImageElement`): its natural dimensions. -/
structure Img where
  naturalWidth : ℚ
  naturalHeight : ℚ
deriving DecidableEq

/-- `type MotifSource = "user" | "remote" | "local" | "none"`. -/
inductive MotifSource
  | user
  | remote
  | local
  | none
deriving DecidableEq

/-- Outcome environment for one resolution: for each tier, whether
`loadImageWithTimeout` on that tier's URL resolves within its timeout
(`some img`) or rejects / times out (`none`). -/
structure ImgEnv where
  userImg : Option Img
  remoteImg : Option Img
  localImg : Option Img
deriving DecidableEq

/-- JS truthiness of the optional `userSrc` string (`if (userSrc)`):
`null`/`undefined` and the empty string are falsy. -/
def jsTruthy : Option String → Bool
  | Option.none => false
  | Option.some s => !(s == "")

/-- Steps 2 and 3 of `loadMotifChainDetailed`: remote default, then local
bundled fallback.  Also returns the list of tiers attempted (in order),
appended to the tiers already attempted. -/
def chainFromRemote (env : ImgEnv) (tried : List MotifSource) :
    (Option Img × MotifSource) × List MotifSource :=
  match env.remoteImg with
  | Option.some i => ((Option.some i, MotifSource.remote), tried ++ [MotifSource.remote])
  | Option.none =>
    match env.localImg with
    | Option.some i =>
        ((Option.some i, MotifSource.local),
          tried ++ [MotifSource.remote, MotifSource.local])
    | Option.none =>
        ((Option.none, MotifSource.none),
          tried ++ [MotifSource.remote, MotifSource.local])

/-- `loadMotifChainDetailed(userSrc)`: try user motif (if truthy) → remote
default → local fallback; every failure is caught and advances the chain;
the function itself never throws.  The second component instruments which
tiers were attempted, in order. -/
def loadMotifChainDetailed (userSrc : Option String) (env : ImgEnv) :
    (Option Img × MotifSource) × List MotifSource :=
  if jsTruthy userSrc then
    match env.userImg with
    | Option.some i => ((Option.some i, MotifSource.user), [MotifSource.user])
    | Option.none => chainFromRemote env [MotifSource.user]
  else chainFromRemote env []

/- --------------------- resolver currency (alive flag) --------------------- -/

/-- An event in the life of the motif-loading effect: a new effect run starts
(generation `g`), or the resolution started by generation `g` completes with
`result`. -/
inductive ResolveEvent (α : Type)
  | start (gen : ℕ)
  | complete (gen : ℕ) (result : α)

/-- Observable component state: which effect run currently has `alive = true`
(React runs the previous run's cleanup, setting its flag false, before the
next run starts, so at most the latest started run is alive), and the last
applied `(img, motifSource)` value. -/
structure MotifState (α : Type) where
  aliveGen : Option ℕ
  applied : Option α
deriving DecidableEq

/-- One event step: a new run's body sets its own `alive = true` after the
previous cleanup ran; a completion applies its result only if its own
`alive` flag is still set (`if (!alive) return;`). -/
def stepEvent {α : Type} (s : MotifState α) : ResolveEvent α → MotifState α
  | ResolveEvent.start g => { s with aliveGen := Option.some g }
  | ResolveEvent.complete g r =>
      if s.aliveGen = Option.some g then { s with applied := Option.some r } else s

/-- Run a sequence of effect events from the initial mounted state. -/
def runEvents {α : Type} (evs : List (ResolveEvent α)) : MotifState α :=
  evs.foldl stepEvent ⟨Option.none, Option.none⟩

/- ------------------------- motif tiler ------------------------- -/

/-- `centerX = Math.floor(off.width / 2 - tileW / 2)`. -/
def centerX (W T : ℤ) : ℤ := ⌊(W : ℚ) / 2 - (T : ℚ) / 2⌋

/-- The `while (L > 0 || R < off.width)` loop of the center-first tiling:
at counter `i` it draws a left tile at `L - T` when `leftX + tileW > 0`
(that is, `0 < L`) and a right tile at `R` when `R < W`, both with
`mirror = i % 2 === 1`, then extends both sides by one tile width.
The loop is bounded by explicit fuel; the source loop terminates because
`tileW >= 1`, and `tiles` below supplies ample fuel. -/
def tileLoop (W T : ℤ) : ℕ → ℤ → ℤ → ℕ → List (ℤ × Bool)
  | 0, _, _, _ => []
  | Nat.succ fuel, L, R, i =>
    if 0 < L ∨ R < W then
      ((if 0 < L then [(L - T, i % 2 == 1)] else []) ++
        (if R < W then [(R, i % 2 == 1)] else [])) ++
        tileLoop W T fuel (L - T) (R + T) (i + 1)
    else []

/-- All tiles drawn into the offscreen strip of width `W` with tile width
`T`: the unflipped center tile first, then the alternating extension loop
(`L = centerX`, `R = centerX + tileW`, `i = 1`). -/
def tiles (W T : ℤ) : List (ℤ × Bool) :=
  (centerX W T, false) ::
    tileLoop W T (2 * W.toNat + 2) (centerX W T) (centerX W T + T) 1

/- ------------------------- exporter ------------------------- -/

/-- The drawing surface: whether it is tainted by a cross-origin image that
declined permission, and the PNG encoding of its current contents. -/
structure Canvas where
  tainted : Bool
  png : String
deriving DecidableEq

/-- Modelled from the spec (section 4.5): the host `canvas.toDataURL` API —
not part of this repository — throws a security error when the canvas is
tainted by a cross-origin image, and otherwise returns the encoded PNG. -/
def toDataURL (c : Canvas) : Except Unit String :=
  if c.tainted then Except.error () else Except.ok c.png

/-- `exportPNG`: `try { return canvasRef.current?.toDataURL(...) ?? null }
catch { return null }`. -/
def exportPNG : Option Canvas → Option String
  | Option.none => Option.none
  | Option.some c =>
    match toDataURL c with
    | Except.ok s => Option.some s
    | Except.error _ => Option.none

/- ------------------- App state operations (App.tsx) ------------------- -/

/-- `DEFAULT_PLATE` in `App.tsx` (its id is an opaque random UUID). -/
def DEFAULT_PLATE : Plate := ⟨"default-uuid", 250, 128⟩

/-- `clamp = (n, lo, hi) => Math.min(hi, Math.max(lo, n))`. -/
def clamp (n lo hi : ℚ) : ℚ := min hi (max lo n)

/-- The persisted editor state (only the plate sequence matters here). -/
structure Persisted where
  plates : List Plate
deriving DecidableEq

/-- `addPlate(initial?)`: no-op at 10 plates; otherwise appends a plate whose
dimensions come from `initial` or the last plate (or `DEFAULT_PLATE` when the
sequence is empty), clamped into `[20,300] × [30,128]`; `newId` stands for the
fresh `crypto.randomUUID()`. -/
def addPlate (newId : String) (initial : Option (ℚ × ℚ)) (s : Persisted) : Persisted :=
  if 10 ≤ s.plates.length then s
  else
    let lastP := s.plates.getLast?.getD DEFAULT_PLATE
    let w := match initial with | Option.some i => i.1 | Option.none => lastP.widthCm
    let h := match initial with | Option.some i => i.2 | Option.none => lastP.heightCm
    ⟨s.plates ++ [⟨newId, clamp w 20 300, clamp h 30 128⟩]⟩

/-- `removePlate(id)`: no-op when at most one plate remains; otherwise keeps
the plates whose id differs. -/
def removePlate (remId : String) (s : Persisted) : Persisted :=
  if s.plates.length ≤ 1 then s
  else ⟨s.plates.filter (fun p => p.id != remId)⟩

/-- The `App` default-plate effect: an empty persisted sequence is repaired
to a single `DEFAULT_PLATE`. -/
def repairEmpty (s : Persisted) : Persisted :=
  if s.plates.length = 0 then ⟨[DEFAULT_PLATE]⟩ else s

/- ------------------- concrete inputs for the counterexamples ------------------- -/

/-- A surface whose observed container is degenerate; the paint pass clamps
it to the 200 × 220 css minimum. -/
def surf0 : Surface := ⟨0, 0⟩

/-- Ten maximal in-range plates (300 cm × 128 cm each). -/
def tenPlates : List Plate :=
  [⟨"t0", 300, 128⟩, ⟨"t1", 300, 128⟩, ⟨"t2", 300, 128⟩, ⟨"t3", 300, 128⟩,
   ⟨"t4", 300, 128⟩, ⟨"t5", 300, 128⟩, ⟨"t6", 300, 128⟩, ⟨"t7", 300, 128⟩,
   ⟨"t8", 300, 128⟩, ⟨"t9", 300, 128⟩]

/-- Two in-range plates with different heights and a non-integer scale. -/
def twoPlates : List Plate := [⟨"a", 110, 100⟩, ⟨"b", 97, 50⟩]

/-- Two equal in-range plates (integer pixel geometry). -/
def twoEqualPlates : List Plate := [⟨"a", 100, 100⟩, ⟨"b", 100, 100⟩]

/-- A single in-range plate (width-bound layout on `surf0`). -/
def onePlateWide : List Plate := [⟨"a", 300, 30⟩]

/-- A single square in-range plate. -/
def onePlate100 : List Plate := [⟨"a", 100, 100⟩]

end PlateGen

/- ========================= helper lemmas ========================= -/

namespace PlateGen

theorem le_foldl_max (l : List ℚ) : ∀ a : ℚ, a ≤ l.foldl max a := by
  induction l with
  | nil => intro a; simp
  | cons b t ih =>
    intro a
    simpa using le_trans (le_max_left a b) (ih (max a b))

theorem mem_le_foldl_max (l : List ℚ) : ∀ (a x : ℚ), x ∈ l → x ≤ l.foldl max a := by
  induction l with
  | nil => intro a x hx; cases hx
  | cons b t ih =>
    intro a x hx
    rcases List.mem_cons.mp hx with h | h
    · subst h
      simpa using le_trans (le_max_right a x) (le_foldl_max t (max a x))
    · simpa using ih (max a b) x h

theorem foldl_max_of_le (l : List ℚ) : ∀ a : ℚ, (∀ x ∈ l, x ≤ a) → l.foldl max a = a := by
  induction l with
  | nil => intro a _; rfl
  | cons b t ih =>
    intro a h
    have hb : b ≤ a := h b (List.mem_cons_self b t)
    simp only [List.foldl_cons, max_eq_left hb]
    exact ih a (fun x hx => h x (List.mem_cons_of_mem b hx))

theorem one_le_totalWcm (plates : List Plate) : 1 ≤ totalWcm plates := le_max_left 1 _

theorem totalWcm_pos (plates : List Plate) : 0 < totalWcm plates :=
  lt_of_lt_of_le one_pos (one_le_totalWcm plates)

theorem one_le_maxHcm (plates : List Plate) : 1 ≤ maxHcm plates := by
  unfold maxHcm
  cases h : maxHcmRaw plates with
  | none => exact le_refl 1
  | some m => exact le_max_left 1 m

theorem maxHcm_pos (plates : List Plate) : 0 < maxHcm plates :=
  lt_of_lt_of_le one_pos (one_le_maxHcm plates)

theorem heightCm_le_maxHcm {p : Plate} {plates : List Plate} (hmem : p ∈ plates) :
    p.heightCm ≤ maxHcm plates := by
  cases plates with
  | nil => cases hmem
  | cons q t =>
    have hfold : p.heightCm ≤ (t.map Plate.heightCm).foldl max q.heightCm := by
      rcases List.mem_cons.mp hmem with h | h
      · subst h; exact le_foldl_max _ _
      · exact mem_le_foldl_max _ _ _ (List.mem_map_of_mem _ h)
    calc p.heightCm ≤ (t.map Plate.heightCm).foldl max q.heightCm := hfold
      _ ≤ maxHcm (q :: t) := le_max_right 1 _

theorem one_tenth_le_scale (plates : List Plate) (s : Surface) :
    1/10 ≤ scale plates s := le_max_left _ _

theorem scale_pos (plates : List Plate) (s : Surface) : 0 < scale plates s :=
  lt_of_lt_of_le (by norm_num) (one_tenth_le_scale plates s)

theorem scale_nonneg (plates : List Plate) (s : Surface) : 0 ≤ scale plates s :=
  le_of_lt (scale_pos plates s)

theorem usableW_ge (s : Surface) : 152 ≤ usableW s := by
  have h200 : (200 : ℚ) ≤ cssW s * cardWRatio := by
    simp only [cardWRatio, mul_one]
    exact le_max_left 200 s.w
  have hfl : (200 : ℤ) ≤ ⌊cssW s * cardWRatio⌋ := Int.le_floor.mpr (by exact_mod_cast h200)
  have hq : (200 : ℚ) ≤ ((⌊cssW s * cardWRatio⌋ : ℤ) : ℚ) := by exact_mod_cast hfl
  unfold usableW cardW jsFloor OUTER_PAD
  linarith

theorem usableH_ge (s : Surface) : 161 ≤ usableH s := by
  have h220 : (220 : ℚ) ≤ cssH s := le_max_left 220 s.h
  have h209 : (209 : ℚ) ≤ cssH s * cardHRatio := by
    unfold cardHRatio
    nlinarith
  have hfl : (209 : ℤ) ≤ ⌊cssH s * cardHRatio⌋ := Int.le_floor.mpr (by exact_mod_cast h209)
  have hq : (209 : ℚ) ≤ ((⌊cssH s * cardHRatio⌋ : ℤ) : ℚ) := by exact_mod_cast hfl
  unfold usableH cardH jsFloor OUTER_PAD
  linarith

theorem gapsPx_nonneg (plates : List Plate) : 0 ≤ gapsPx plates :=
  mul_nonneg (by norm_num [GAP_PX]) (le_max_left 0 _)

theorem floor_sub_add_le (B h : ℚ) : jsFloor (B - h) + h ≤ B := by
  unfold jsFloor
  have := Int.floor_le (B - h)
  linarith

theorem lt_floor_sub_add (B h : ℚ) : B - 1 < jsFloor (B - h) + h := by
  unfold jsFloor
  have := Int.sub_one_lt_floor (B - h)
  linarith

/- ========================= C1 ========================= -/

/-- C1 (amended): the realized scale equals
`max(minimumScale, min(scaleByWidth, scaleByHeight))` with `minimumScale =
0.1`; and the tighter axis wins — `scale = scaleByW` when
`scaleByW < scaleByH`, and vice versa — provided the tighter scale is at
least the minimum scale floor (the floor overrides it otherwise). -/
theorem scale_tighter_axis (plates : List Plate) (s : Surface) :
    scale plates s = max (1/10) (min (scaleByW plates s) (scaleByH plates s)) ∧
    (1/10 ≤ scaleByW plates s → scaleByW plates s < scaleByH plates s →
      scale plates s = scaleByW plates s) ∧
    (1/10 ≤ scaleByH plates s → scaleByH plates s < scaleByW plates s →
      scale plates s = scaleByH plates s) := by
  refine ⟨rfl, fun h1 h2 => ?_, fun h1 h2 => ?_⟩
  · unfold scale
    rw [min_eq_left (le_of_lt h2), max_eq_right h1]
  · unfold scale
    rw [min_eq_right (le_of_lt h2), max_eq_right h1]

/-- C1 counterexample: ten maximal in-range plates on a minimal surface give
`scaleByW = 2/75 < scaleByH`, yet the realized scale is the floor `1/10`,
not `scaleByW`. -/
theorem scale_tighter_axis_counterexample :
    scaleByW tenPlates surf0 < scaleByH tenPlates surf0 ∧
    scale tenPlates surf0 = 1/10 ∧
    scale tenPlates surf0 ≠ scaleByW tenPlates surf0 := by
  refine ⟨?_, ?_, ?_⟩ <;>
    norm_num [scale, scaleByW, scaleByH, usableW, usableH, gapsPx, totalWcm,
      totalWcmRaw, maxHcm, maxHcmRaw, cardW, cardH, cssW, cssH, cardWRatio,
      cardHRatio, jsFloor, OUTER_PAD, GAP_PX, surf0, tenPlates]

/-- Witness for C1's theorem at a concrete width-bound input. -/
theorem scale_tighter_axis_witness :
    1/10 ≤ scaleByW onePlateWide surf0 ∧
    scaleByW onePlateWide surf0 < scaleByH onePlateWide surf0 ∧
    scale onePlateWide surf0 = scaleByW onePlateWide surf0 := by
  have h1 : 1/10 ≤ scaleByW onePlateWide surf0 := by
    norm_num [scaleByW, usableW, gapsPx, totalWcm, totalWcmRaw, cardW, cssW,
      cardWRatio, jsFloor, OUTER_PAD, GAP_PX, surf0, onePlateWide]
  have h2 : scaleByW onePlateWide surf0 < scaleByH onePlateWide surf0 := by
    norm_num [scaleByW, scaleByH, usableW, usableH, gapsPx, totalWcm,
      totalWcmRaw, maxHcm, maxHcmRaw, cardW, cardH, cssW, cssH, cardWRatio,
      cardHRatio, jsFloor, OUTER_PAD, GAP_PX, surf0, onePlateWide]
  exact ⟨h1, h2, (scale_tighter_axis onePlateWide surf0).2.1 h1 h2⟩

/- ========================= C2 ========================= -/

/-- C2 (amended): in one layout result every painted plate's bottom edge
`plateRect.y + plateRect.h` lies in the interval `(baselineY - 1, baselineY]`,
so any two plates' bottom edges agree within one pixel; exact equality can
fail, by less than one pixel, because each plate's y coordinate is floored
individually. -/
theorem bottomEdge_within_one_pixel (plates : List Plate) (s : Surface) (i j : ℕ) :
    (baselineY plates s - 1 < bottomEdge plates s i ∧
      bottomEdge plates s i ≤ baselineY plates s) ∧
    |bottomEdge plates s i - bottomEdge plates s j| < 1 := by
  have key : ∀ k : ℕ, baselineY plates s - 1 < bottomEdge plates s k ∧
      bottomEdge plates s k ≤ baselineY plates s := by
    intro k
    unfold bottomEdge plateY
    exact ⟨lt_floor_sub_add _ _, floor_sub_add_le _ _⟩
  refine ⟨key i, ?_⟩
  rcases key i with ⟨hi1, hi2⟩
  rcases key j with ⟨hj1, hj2⟩
  rw [abs_sub_lt_iff]
  constructor <;> linarith

/-- C2 counterexample: two in-range plates whose painted bottom edges differ
by `18/23` of a pixel — not equal, and far beyond floating-point tolerance. -/
theorem bottomEdge_counterexample :
    bottomEdge twoPlates surf0 0 - bottomEdge twoPlates surf0 1 = 18/23 ∧
    bottomEdge twoPlates surf0 0 ≠ bottomEdge twoPlates surf0 1 := by
  constructor <;>
    norm_num [bottomEdge, plateY, plateH, baselineY, startY, innerH, scale,
      scaleByW, scaleByH, usableW, usableH, gapsPx, totalWcm, totalWcmRaw,
      maxHcm, maxHcmRaw, cardW, cardH, cssW, cssH, cardWRatio, cardHRatio,
      x0, y0, ix, iy, jsFloor, OUTER_PAD, GAP_PX, dummyPlate, surf0, twoPlates,
      List.getD]

/- ========================= C5 ========================= -/

/-- C5 (amended): layout is total — both clamped denominators are positive
(no division by zero) and the realized scale is finite and at least the
floor `0.1`, hence positive, for every input; for an empty sequence or
all-zero dimensions both denominators clamp to `1`, so the realized scale is
`max(0.1, min(usableW - gapsPx, usableH))`, which generally exceeds the
minimum scale floor rather than equalling it. -/
theorem degenerate_layout_safe (plates : List Plate) (s : Surface) :
    0 < totalWcm plates ∧ 0 < maxHcm plates ∧
    1/10 ≤ scale plates s ∧ 0 < scale plates s ∧
    ((∀ p ∈ plates, p.widthCm = 0 ∧ p.heightCm = 0) →
      scale plates s = max (1/10) (min (usableW s - gapsPx plates) (usableH s))) := by
  refine ⟨totalWcm_pos plates, maxHcm_pos plates, one_tenth_le_scale plates s,
    scale_pos plates s, fun hz => ?_⟩
  have hw : totalWcmRaw plates = 0 := by
    apply List.sum_eq_zero
    intro x hx
    rcases List.mem_map.mp hx with ⟨p, hp, rfl⟩
    exact (hz p hp).1
  have htw : totalWcm plates = 1 := by
    unfold totalWcm
    rw [hw]
    exact max_eq_left (by norm_num)
  have hmh : maxHcm plates = 1 := by
    cases plates with
    | nil => rfl
    | cons q t =>
      have hq : q.heightCm = 0 := (hz q (List.mem_cons_self q t)).2
      have hfold : (t.map Plate.heightCm).foldl max q.heightCm = q.heightCm := by
        apply foldl_max_of_le
        intro x hx
        rcases List.mem_map.mp hx with ⟨p, hp, rfl⟩
        rw [hq, (hz p (List.mem_cons_of_mem q hp)).2]
      show max 1 ((t.map Plate.heightCm).foldl max q.heightCm) = 1
      rw [hfold, hq]
      exact max_eq_left (by norm_num)
  unfold scale scaleByW scaleByH
  rw [htw, hmh, div_one, div_one]

/-- C5 counterexample: for the empty plate sequence on a minimal surface the
realized scale is `152`, not the minimum scale floor `0.1`. -/
theorem degenerate_scale_counterexample :
    scale ([] : List Plate) surf0 = 152 ∧ scale ([] : List Plate) surf0 ≠ 1/10 := by
  constructor <;>
    norm_num [scale, scaleByW, scaleByH, totalWcm, totalWcmRaw, maxHcm,
      maxHcmRaw, usableW, usableH, gapsPx, cardW, cardH, cssW, cssH,
      cardWRatio, cardHRatio, jsFloor, OUTER_PAD, GAP_PX, surf0]

/-- Witness for C5's theorem at the empty plate sequence. -/
theorem degenerate_layout_safe_witness :
    scale ([] : List Plate) surf0 =
      max (1/10) (min (usableW surf0 - gapsPx []) (usableH surf0)) ∧
    scale ([] : List Plate) surf0 = 152 := by
  have h := (degenerate_layout_safe ([] : List Plate) surf0).2.2.2.2
    (by intro p hp; cases hp)
  refine ⟨h, ?_⟩
  rw [h]
  norm_num [usableW, usableH, gapsPx, cardW, cardH, cssW, cssH, cardWRatio,
    cardHRatio, jsFloor, OUTER_PAD, GAP_PX, surf0]

end PlateGen

namespace PlateGen

/- ========================= C4 ========================= -/

theorem map_max_zero_mul_sum (c : ℚ) (hc : 0 ≤ c) :
    ∀ l : List Plate, (∀ p ∈ l, 0 ≤ p.widthCm) →
      (l.map (fun p => max 0 (p.widthCm * c))).sum = c * (l.map Plate.widthCm).sum := by
  intro l
  induction l with
  | nil => intro _; simp
  | cons q t ih =>
    intro h
    have hq : 0 ≤ q.widthCm := h q (List.mem_cons_self q t)
    have hmax : max 0 (q.widthCm * c) = q.widthCm * c := max_eq_right (mul_nonneg hq hc)
    simp only [List.map_cons, List.sum_cons, hmax,
      ih (fun p hp => h p (List.mem_cons_of_mem q hp))]
    ring

/-- C4 (amended): provided the plate dimensions are nonnegative and the
minimum scale floor is not the binding constraint
(`0.1 ≤ min(scaleByW, scaleByH)`), the sum of the painted plate pixel widths
plus the inter-plate gaps never exceeds the card's usable width, and every
painted plate pixel height never exceeds the card's usable height. -/
theorem plates_fit_in_card (plates : List Plate) (s : Surface)
    (hdims : ∀ p ∈ plates, 0 ≤ p.widthCm)
    (hfloor : 1/10 ≤ min (scaleByW plates s) (scaleByH plates s)) :
    sumPlateWidths plates s + gapsPx plates ≤ usableW s ∧
    ∀ idx : ℕ, plateH plates s idx ≤ usableH s := by
  have hscale : scale plates s = min (scaleByW plates s) (scaleByH plates s) :=
    max_eq_right hfloor
  have hsW : scale plates s ≤ scaleByW plates s := by
    rw [hscale]; exact min_le_left _ _
  have hsH : scale plates s ≤ scaleByH plates s := by
    rw [hscale]; exact min_le_right _ _
  constructor
  · have h1 : sumPlateWidths plates s = scale plates s * totalWcmRaw plates :=
      map_max_zero_mul_sum (scale plates s) (scale_nonneg plates s) plates hdims
    have h2 : scale plates s * totalWcmRaw plates ≤ scale plates s * totalWcm plates :=
      mul_le_mul_of_nonneg_left (le_max_right 1 _) (scale_nonneg plates s)
    have h3 : scale plates s * totalWcm plates ≤ scaleByW plates s * totalWcm plates :=
      mul_le_mul_of_nonneg_right hsW (le_of_lt (totalWcm_pos plates))
    have h4 : scaleByW plates s * totalWcm plates = usableW s - gapsPx plates := by
      unfold scaleByW
      exact div_mul_cancel₀ _ (ne_of_gt (totalWcm_pos plates))
    rw [h1]
    linarith
  · intro idx
    have husable : (0 : ℚ) ≤ usableH s := by linarith [usableH_ge s]
    by_cases hlt : idx < plates.length
    · have hmem : plates.getD idx dummyPlate ∈ plates := by
        rw [List.getD_eq_getElem plates dummyPlate hlt]
        exact List.getElem_mem hlt
      have hh : (plates.getD idx dummyPlate).heightCm ≤ maxHcm plates :=
        heightCm_le_maxHcm hmem
      have c1 : (plates.getD idx dummyPlate).heightCm * scale plates s ≤
          maxHcm plates * scale plates s :=
        mul_le_mul_of_nonneg_right hh (scale_nonneg plates s)
      have c2 : maxHcm plates * scale plates s ≤ maxHcm plates * scaleByH plates s :=
        mul_le_mul_of_nonneg_left hsH (le_of_lt (maxHcm_pos plates))
      have c3 : maxHcm plates * scaleByH plates s = usableH s := by
        unfold scaleByH
        rw [mul_comm]
        exact div_mul_cancel₀ _ (ne_of_gt (maxHcm_pos plates))
      unfold plateH
      exact max_le husable (by linarith)
    · unfold plateH
      rw [List.getD_eq_default plates dummyPlate (le_of_not_lt hlt)]
      simpa [dummyPlate] using husable

/-- C4 counterexample: ten maximal in-range plates on a minimal surface paint
`300 + 72 = 372` pixels of width into a usable width of `152` — the minimum
scale floor deliberately overrides the fit constraint. -/
theorem plates_fit_counterexample :
    sumPlateWidths tenPlates surf0 + gapsPx tenPlates = 372 ∧
    usableW surf0 = 152 ∧
    ¬(sumPlateWidths tenPlates surf0 + gapsPx tenPlates ≤ usableW surf0) := by
  refine ⟨?_, ?_, ?_⟩ <;>
    norm_num [sumPlateWidths, scale, scaleByW, scaleByH, usableW, usableH,
      gapsPx, totalWcm, totalWcmRaw, maxHcm, maxHcmRaw, cardW, cardH, cssW,
      cssH, cardWRatio, cardHRatio, jsFloor, OUTER_PAD, GAP_PX, surf0, tenPlates]

/-- Witness for C4's theorem at a concrete fitting input. -/
theorem plates_fit_witness :
    sumPlateWidths onePlate100 surf0 + gapsPx onePlate100 ≤ usableW surf0 ∧
    ∀ idx : ℕ, plateH onePlate100 surf0 idx ≤ usableH surf0 :=
  plates_fit_in_card onePlate100 surf0
    (by
      intro p hp
      simp only [onePlate100, List.mem_singleton] at hp
      subst hp
      norm_num)
    (by
      norm_num [scaleByW, scaleByH, usableW, usableH, gapsPx, totalWcm,
        totalWcmRaw, maxHcm, maxHcmRaw, cardW, cardH, cssW, cssH, cardWRatio,
        cardHRatio, jsFloor, OUTER_PAD, GAP_PX, surf0, onePlate100])

/- ========================= C3 ========================= -/

/-- C3 (amended): the horizontal source offset into the strip is the floor of
the running sum of the preceding plates' scaled widths with NO gap
contribution (the accumulated gaps shift only the destination `dx`), and the
vertical sample window is the strip's bottom-aligned slice up to flooring:
whenever the plate's scaled height fits the strip, the window's bottom
`sy + h` lands in `(off.height - 1, off.height]`. -/
theorem source_offsets (plates : List Plate) (s : Surface) (idx : ℕ) :
    srcX plates s idx =
      jsFloor (((plates.take idx).map (fun p => p.widthCm * scale plates s)).sum) ∧
    plateX plates s idx =
      jsFloor (startX plates s + accAt plates s idx + GAP_PX * idx) ∧
    (plateH plates s idx ≤ offH plates s →
      offH plates s - 1 < srcY plates s idx + plateH plates s idx ∧
      srcY plates s idx + plateH plates s idx ≤ offH plates s) := by
  refine ⟨rfl, rfl, fun hle => ?_⟩
  have hfl : (0 : ℚ) ≤ jsFloor (offH plates s - plateH plates s idx) := by
    unfold jsFloor
    have h0 : (0 : ℤ) ≤ ⌊offH plates s - plateH plates s idx⌋ :=
      Int.floor_nonneg.mpr (by linarith)
    exact_mod_cast h0
  have hsy : srcY plates s idx = jsFloor (offH plates s - plateH plates s idx) :=
    max_eq_right hfl
  rw [hsy]
  exact ⟨lt_floor_sub_add _ _, floor_sub_add_le _ _⟩

/-- C3 counterexample: with two 100 cm plates at scale `0.72`, the second
plate's source offset is `⌊72⌋ = 72`, while the spec's formula — running sum
of preceding scaled widths plus accumulated gaps — gives `⌊72 + 8⌋ = 80`. -/
theorem source_offsets_counterexample :
    srcX twoEqualPlates surf0 1 = 72 ∧
    srcXSpec twoEqualPlates surf0 1 = 80 ∧
    srcX twoEqualPlates surf0 1 ≠ srcXSpec twoEqualPlates surf0 1 := by
  refine ⟨?_, ?_, ?_⟩ <;>
    norm_num [srcX, srcXSpec, accAt, scale, scaleByW, scaleByH, usableW,
      usableH, gapsPx, totalWcm, totalWcmRaw, maxHcm, maxHcmRaw, cardW, cardH,
      cssW, cssH, cardWRatio, cardHRatio, jsFloor, OUTER_PAD, GAP_PX, surf0,
      twoEqualPlates]

/-- Witness for C3's theorem at a concrete in-range input. -/
theorem source_offsets_witness :
    plateH twoEqualPlates surf0 0 ≤ offH twoEqualPlates surf0 ∧
    (offH twoEqualPlates surf0 - 1 <
      srcY twoEqualPlates surf0 0 + plateH twoEqualPlates surf0 0 ∧
      srcY twoEqualPlates surf0 0 + plateH twoEqualPlates surf0 0 ≤
        offH twoEqualPlates surf0) := by
  have hle : plateH twoEqualPlates surf0 0 ≤ offH twoEqualPlates surf0 := by
    norm_num [plateH, offH, innerH, jsRound, scale, scaleByW, scaleByH,
      usableW, usableH, gapsPx, totalWcm, totalWcmRaw, maxHcm, maxHcmRaw,
      cardW, cardH, cssW, cssH, cardWRatio, cardHRatio, jsFloor, OUTER_PAD,
      GAP_PX, dummyPlate, List.getD, surf0, twoEqualPlates]
  exact ⟨hle, (source_offsets twoEqualPlates surf0 0).2.2 hle⟩

end PlateGen

namespace PlateGen

/- ========================= C6 ========================= -/

/-- C6: the motif resolver tries sources in strict priority order — the
user-supplied locator only when it is truthy, then the fixed remote default,
then the bundled local fallback — returns the first image that decodes
within its timeout tagged with that tier, stops without attempting any
lower-priority source on success (the attempted-tier trace witnesses this),
returns `(none, none)` when every attempt fails, and, being a total
function, never propagates an error to the caller; the image is absent
exactly when the tier is `none`. -/
theorem resolver_chain (us : Option String) (env : ImgEnv) :
    (jsTruthy us = true → ∀ i : Img, env.userImg = Option.some i →
      loadMotifChainDetailed us env =
        ((Option.some i, MotifSource.user), [MotifSource.user])) ∧
    ((jsTruthy us = false ∨ env.userImg = Option.none) →
      ∀ i : Img, env.remoteImg = Option.some i →
      loadMotifChainDetailed us env =
        ((Option.some i, MotifSource.remote),
          (if jsTruthy us then [MotifSource.user] else []) ++
            [MotifSource.remote])) ∧
    ((jsTruthy us = false ∨ env.userImg = Option.none) →
      env.remoteImg = Option.none → ∀ i : Img, env.localImg = Option.some i →
      loadMotifChainDetailed us env =
        ((Option.some i, MotifSource.local),
          (if jsTruthy us then [MotifSource.user] else []) ++
            [MotifSource.remote, MotifSource.local])) ∧
    ((jsTruthy us = false ∨ env.userImg = Option.none) →
      env.remoteImg = Option.none → env.localImg = Option.none →
      loadMotifChainDetailed us env =
        ((Option.none, MotifSource.none),
          (if jsTruthy us then [MotifSource.user] else []) ++
            [MotifSource.remote, MotifSource.local])) ∧
    ((loadMotifChainDetailed us env).1.1 = Option.none ↔
      (loadMotifChainDetailed us env).1.2 = MotifSource.none) := by
  cases ht : jsTruthy us <;>
    cases hu : env.userImg <;>
      cases hr : env.remoteImg <;>
        cases hl : env.localImg <;>
          simp [loadMotifChainDetailed, chainFromRemote, ht, hu, hr, hl]

/-- Witness for C6's theorem: a truthy user locator that fails to decode,
with the remote default succeeding, resolves to the remote tier after
attempting the user tier. -/
theorem resolver_chain_witness :
    loadMotifChainDetailed (Option.some "blob:user-upload")
        ⟨Option.none, Option.some ⟨4, 3⟩, Option.none⟩ =
      ((Option.some ⟨4, 3⟩, MotifSource.remote),
        [MotifSource.user, MotifSource.remote]) := by
  have h := (resolver_chain (Option.some "blob:user-upload")
      ⟨Option.none, Option.some ⟨4, 3⟩, Option.none⟩).2.1
    (Or.inr rfl) ⟨4, 3⟩ rfl
  simpa [jsTruthy] using h

/- ========================= C7 ========================= -/

/-- C7: when a second motif resolution (generation 1) starts before the first
(generation 0) completes, only the second resolution's outcome is applied to
the observable image/tier state, in either completion order; the stale
resolution's completion is a no-op because its effect's `alive` flag was
cleared by the cleanup that ran before the new effect run started. -/
theorem resolver_currency (r1 r2 : Option Img × MotifSource) (ord : Bool) :
    (runEvents
      (if ord then
        [ResolveEvent.start 0, ResolveEvent.start 1,
          ResolveEvent.complete 0 r1, ResolveEvent.complete 1 r2]
      else
        [ResolveEvent.start 0, ResolveEvent.start 1,
          ResolveEvent.complete 1 r2, ResolveEvent.complete 0 r1])).applied =
      Option.some r2 := by
  cases ord <;> simp [runEvents, stepEvent]

/- ========================= C9 ========================= -/

/-- C9: the export operation is total — it never throws to its caller — and
returns `none` both when the canvas is absent and when the canvas is tainted
by a cross-origin image that declined permission (the host read-back throws
and `exportPNG` catches); otherwise it returns the encoded PNG bytes of the
current surface. -/
theorem export_png_safe (oc : Option Canvas) :
    (oc = Option.none → exportPNG oc = Option.none) ∧
    (∀ c : Canvas, oc = Option.some c → c.tainted = true →
      exportPNG oc = Option.none) ∧
    (∀ c : Canvas, oc = Option.some c → c.tainted = false →
      exportPNG oc = Option.some c.png) := by
  refine ⟨fun h => by rw [h]; rfl, fun c h ht => ?_, fun c h ht => ?_⟩
  · rw [h]; simp [exportPNG, toDataURL, ht]
  · rw [h]; simp [exportPNG, toDataURL, ht]

/-- Witness for C9's theorem: a tainted canvas exports as `none`, a clean
canvas exports its PNG bytes, an absent canvas exports as `none`. -/
theorem export_png_safe_witness :
    exportPNG (Option.some ⟨true, "png-bytes"⟩) = Option.none ∧
    exportPNG (Option.some ⟨false, "png-bytes"⟩) = Option.some "png-bytes" ∧
    exportPNG Option.none = Option.none :=
  ⟨(export_png_safe _).2.1 ⟨true, "png-bytes"⟩ rfl rfl,
    (export_png_safe _).2.2 ⟨false, "png-bytes"⟩ rfl rfl,
    (export_png_safe _).1 rfl⟩

end PlateGen

namespace PlateGen

/- ========================= C8 ========================= -/

theorem tileLoop_succ (W T : ℤ) (fuel : ℕ) (L R : ℤ) (i : ℕ) :
    tileLoop W T (fuel + 1) L R i =
      if 0 < L ∨ R < W then
        ((if 0 < L then [(L - T, i % 2 == 1)] else []) ++
          (if R < W then [(R, i % 2 == 1)] else [])) ++
          tileLoop W T fuel (L - T) (R + T) (i + 1)
      else [] := rfl

theorem tileLoop_mem_parity (W T : ℤ) :
    ∀ (fuel : ℕ) (i : ℕ) (L R : ℤ), 1 ≤ i →
      L = centerX W T - ((i : ℤ) - 1) * T → R = centerX W T + (i : ℤ) * T →
      ∀ xm ∈ tileLoop W T fuel L R i,
        ∃ k : ℤ, xm.1 = centerX W T + k * T ∧ (xm.2 = true ↔ Odd k) := by
  intro fuel
  induction fuel with
  | zero =>
    intro i L R _ _ _ xm hxm
    simp [tileLoop] at hxm
  | succ fuel ih =>
    intro i L R hi hL hR xm hxm
    rw [tileLoop_succ] at hxm
    by_cases hcond : 0 < L ∨ R < W
    · rw [if_pos hcond] at hxm
      rcases List.mem_append.mp hxm with hmem | hrec
      · rcases List.mem_append.mp hmem with hleft | hright
        · by_cases hl : 0 < L
          · rw [if_pos hl] at hleft
            have hxm2 : xm = (L - T, i % 2 == 1) := List.mem_singleton.mp hleft
            subst hxm2
            refine ⟨-(i : ℤ), ?_, ?_⟩
            · rw [hL]; ring
            · simp only [beq_iff_eq, odd_neg, Int.odd_coe_nat, Nat.odd_iff]
          · rw [if_neg hl] at hleft
            cases hleft
        · by_cases hr : R < W
          · rw [if_pos hr] at hright
            have hxm2 : xm = (R, i % 2 == 1) := List.mem_singleton.mp hright
            subst hxm2
            refine ⟨(i : ℤ), ?_, ?_⟩
            · rw [hR]
            · simp only [beq_iff_eq, Int.odd_coe_nat, Nat.odd_iff]
          · rw [if_neg hr] at hright
            cases hright
      · refine ih (i + 1) (L - T) (R + T) (by omega) ?_ ?_ xm hrec
        · rw [hL]; push_cast; ring
        · rw [hR]; push_cast; ring
    · rw [if_neg hcond] at hxm
      cases hxm

/-- C8: in the center-first tiling the first tile drawn is the unflipped
center tile; every tile sits at a whole number `k` of tile-widths from the
center and is mirrored exactly when `k` is odd — hence the immediate left
and right neighbors of the center are mirrored, any two tiles an even
number of positions apart share their mirror flag, and adjacent tiles
always alternate; the immediate neighbors are indeed drawn whenever they
intersect the strip. -/
theorem tiling_mirror_parity (W T : ℤ) :
    (tiles W T).head? = Option.some (centerX W T, false) ∧
    (∀ xm ∈ tiles W T, ∃ k : ℤ,
      xm.1 = centerX W T + k * T ∧ (xm.2 = true ↔ Odd k)) ∧
    (1 ≤ T → ∀ (k : ℤ) (m : Bool), (centerX W T + k * T, m) ∈ tiles W T →
      (m = true ↔ Odd k)) ∧
    (0 < centerX W T → (centerX W T - T, true) ∈ tiles W T) ∧
    (centerX W T + T < W → (centerX W T + T, true) ∈ tiles W T) := by
  have hchar : ∀ xm ∈ tiles W T, ∃ k : ℤ,
      xm.1 = centerX W T + k * T ∧ (xm.2 = true ↔ Odd k) := by
    intro xm hxm
    rcases List.mem_cons.mp hxm with hc | hloop
    · subst hc
      exact ⟨0, by simp, by simp [Int.odd_iff]⟩
    · exact tileLoop_mem_parity W T _ 1 _ _ le_rfl (by push_cast; ring)
        (by push_cast; ring) xm hloop
  refine ⟨rfl, hchar, ?_, ?_, ?_⟩
  · intro hT k m hmem
    rcases hchar _ hmem with ⟨k2, hx, hpar⟩
    have hT0 : T ≠ 0 := by omega
    have h2 : centerX W T + k * T = centerX W T + k2 * T := hx
    have h3 : k * T = k2 * T := by linarith
    have hk : k = k2 := mul_right_cancel₀ hT0 h3
    rw [hk]
    exact hpar
  · intro hc
    have hfuel : (2 * W.toNat + 2 : ℕ) = (2 * W.toNat + 1) + 1 := rfl
    show (centerX W T - T, true) ∈ (centerX W T, false) ::
      tileLoop W T (2 * W.toNat + 2) (centerX W T) (centerX W T + T) 1
    apply List.mem_cons_of_mem
    rw [hfuel, tileLoop_succ, if_pos (Or.inl hc), if_pos hc]
    simp
  · intro hr
    have hfuel : (2 * W.toNat + 2 : ℕ) = (2 * W.toNat + 1) + 1 := rfl
    show (centerX W T + T, true) ∈ (centerX W T, false) ::
      tileLoop W T (2 * W.toNat + 2) (centerX W T) (centerX W T + T) 1
    apply List.mem_cons_of_mem
    rw [hfuel, tileLoop_succ, if_pos (Or.inr hr)]
    by_cases hl : 0 < centerX W T
    · rw [if_pos hl, if_pos hr]
      simp
    · rw [if_neg hl, if_pos hr]
      simp

/-- Witness for C8's theorem on a 10-pixel strip with 3-pixel tiles: both
immediate neighbors of the center tile are drawn, and the tile one step
from center is mirrored. -/
theorem tiling_mirror_parity_witness :
    (centerX 10 3 - 3, true) ∈ tiles 10 3 ∧
    (centerX 10 3 + 3, true) ∈ tiles 10 3 ∧
    (true = true ↔ Odd (1 : ℤ)) := by
  have hc : centerX 10 3 = 3 := by norm_num [centerX]
  have hmemR : (centerX 10 3 + 3, true) ∈ tiles 10 3 :=
    (tiling_mirror_parity 10 3).2.2.2.2 (by rw [hc]; norm_num)
  have hmemR1 : (centerX 10 3 + 1 * 3, true) ∈ tiles 10 3 := by
    simpa using hmemR
  exact ⟨(tiling_mirror_parity 10 3).2.2.2.1 (by rw [hc]; norm_num), hmemR,
    (tiling_mirror_parity 10 3).2.2.1 (by norm_num) 1 true hmemR1⟩

end PlateGen

namespace PlateGen

theorem filter_ne_length_ge (remId : String) :
    ∀ l : List Plate, (l.map Plate.id).Nodup →
      l.length - 1 ≤ (l.filter (fun p => p.id != remId)).length := by
  intro l
  induction l with
  | nil => intro _; simp
  | cons q t ih =>
    intro hnd
    rw [List.map_cons, List.nodup_cons] at hnd
    rcases hnd with ⟨hnotin, hndt⟩
    by_cases hq : q.id = remId
    · have hfilter : t.filter (fun p => p.id != remId) = t := by
        apply List.filter_eq_self.mpr
        intro p hp
        have : p.id ≠ remId := by
          intro hcontra
          exact hnotin (hq ▸ hcontra ▸ List.mem_map_of_mem Plate.id hp)
        simpa [bne_iff_ne]
      have hqfalse : (q.id != remId) = false := by
        simp [bne_iff_ne, hq]
      simp [List.filter_cons, hqfalse, hfilter]
    · have hqtrue : (q.id != remId) = true := by
        simp [bne_iff_ne, hq]
      have := ih hndt
      simp only [List.filter_cons, hqtrue, if_true, List.length_cons]
      omega

/-- C10: the plate editor's state operations preserve the `[1,10]` plate-count
invariant: `addPlate` leaves the state unchanged when ten plates already
exist and otherwise appends exactly one plate whose dimensions are clamped
into `[20,300] × [30,128]`; `removePlate` leaves the state unchanged when
only one plate remains and otherwise (under the unique-id invariant the app
repairs ids to) keeps the count in range; an empty persisted sequence is
repaired to a single default plate. -/
theorem plate_count_invariant (s : Persisted) (newId remId : String)
    (initial : Option (ℚ × ℚ))
    (hlo : 1 ≤ s.plates.length) (hhi : s.plates.length ≤ 10) :
    (1 ≤ (addPlate newId initial s).plates.length ∧
      (addPlate newId initial s).plates.length ≤ 10) ∧
    (s.plates.length = 10 → addPlate newId initial s = s) ∧
    (s.plates.length < 10 → ∃ p : Plate,
      (addPlate newId initial s).plates = s.plates ++ [p] ∧
      20 ≤ p.widthCm ∧ p.widthCm ≤ 300 ∧ 30 ≤ p.heightCm ∧ p.heightCm ≤ 128) ∧
    ((s.plates.map Plate.id).Nodup →
      1 ≤ (removePlate remId s).plates.length ∧
      (removePlate remId s).plates.length ≤ 10) ∧
    (s.plates.length = 1 → removePlate remId s = s) ∧
    repairEmpty ⟨[]⟩ = ⟨[DEFAULT_PLATE]⟩ := by
  refine ⟨?_, ?_, ?_, ?_, ?_, ?_⟩
  · unfold addPlate
    by_cases h10 : 10 ≤ s.plates.length
    · rw [if_pos h10]
      exact ⟨hlo, hhi⟩
    · rw [if_neg h10]
      simp only [List.length_append, List.length_singleton]
      omega
  · intro h
    unfold addPlate
    rw [if_pos (by omega)]
  · intro h
    unfold addPlate
    rw [if_neg (by omega)]
    refine ⟨_, rfl, ?_, ?_, ?_, ?_⟩
    · exact le_min (by norm_num) (le_max_left 20 _)
    · exact min_le_left 300 _
    · exact le_min (by norm_num) (le_max_left 30 _)
    · exact min_le_left 128 _
  · intro hnd
    unfold removePlate
    by_cases hle : s.plates.length ≤ 1
    · rw [if_pos hle]
      exact ⟨hlo, hhi⟩
    · rw [if_neg hle]
      have h1 := filter_ne_length_ge remId s.plates hnd
      have h2 := List.length_filter_le (fun p => p.id != remId) s.plates
      simp only
      omega
  · intro h1
    unfold removePlate
    rw [if_pos (by omega)]
  · rfl

/-- Witness for C10's theorem at a one-plate state: removing the only plate
is a no-op and adding a plate appends a clamped plate. -/
theorem plate_count_invariant_witness :
    removePlate "a" ⟨[⟨"a", 250, 128⟩]⟩ = ⟨[⟨"a", 250, 128⟩]⟩ ∧
    (∃ p : Plate,
      (addPlate "b" Option.none ⟨[⟨"a", 250, 128⟩]⟩).plates =
        [⟨"a", 250, 128⟩] ++ [p] ∧
      20 ≤ p.widthCm ∧ p.widthCm ≤ 300 ∧ 30 ≤ p.heightCm ∧ p.heightCm ≤ 128) ∧
    (1 ≤ (removePlate "x" ⟨[⟨"a", 250, 128⟩]⟩).plates.length ∧
      (removePlate "x" ⟨[⟨"a", 250, 128⟩]⟩).plates.length ≤ 10) := by
  have h := plate_count_invariant ⟨[⟨"a", 250, 128⟩]⟩ "b" "a" Option.none
    (by simp) (by simp)
  have h2 := plate_count_invariant ⟨[⟨"a", 250, 128⟩]⟩ "b" "x" Option.none
    (by simp) (by simp)
  exact ⟨h.2.2.2.2.1 (by simp), h.2.2.1 (by simp), h2.2.2.2.1 (by simp)⟩

end PlateGen
